import Mathlib

/-!
Verification development for the press-release generation pipeline of
`src/app.py`: prompt assembly (`build_prompt`), model invocation with ordered
fallback (`generate_press_release` with `_candidate_model_names` and
`_extract_text_from_response`), and output normalization (`parse_model_output`
with `_strip_code_fences` and the inner `_to_plain_text`).

Strings are modelled as `List Char` internally, with `String` wrappers at the
API boundary.  Python's `str.strip` / regex `\s` class is modelled by
`isPyWs`, covering the exact set of code points Python treats as whitespace
for `str`.  Each `re.sub` call of the source is embedded as a deterministic
leftmost, non-overlapping scan (`reSub`) together with a matcher that mirrors
the concrete pattern; `str.replace` is `pyReplace`.  `json.loads` is not part
of the repository; it is modelled from the spec (a recursive-descent JSON
reader) and only ever evaluated on concrete inputs.
-/

set_option maxRecDepth 1000000

namespace PR

/-- Python whitespace class for `str`: the code points matched by `\s` and
stripped by `str.strip()` on text strings. -/
def isPyWs (c : Char) : Bool :=
  (9 ≤ c.toNat && c.toNat ≤ 13) || c.toNat == 32 ||
  (28 ≤ c.toNat && c.toNat ≤ 31) || c.toNat == 0x85 || c.toNat == 0xa0 ||
  c.toNat == 0x1680 || (0x2000 ≤ c.toNat && c.toNat ≤ 0x200a) ||
  c.toNat == 0x2028 || c.toNat == 0x2029 || c.toNat == 0x202f ||
  c.toNat == 0x205f || c.toNat == 0x3000

/-- `str.lstrip()` on a character list. -/
def lstripL (s : List Char) : List Char := s.dropWhile isPyWs

/-- `str.rstrip()` on a character list. -/
def rstripL (s : List Char) : List Char := ((s.reverse).dropWhile isPyWs).reverse

/-- Python `str.strip()` on a character list. -/
def pyStripL (s : List Char) : List Char := lstripL (rstripL s)

/-- Python `str.strip()`. -/
def pyStrip (s : String) : String := ⟨pyStripL s.data⟩

/-- Fuel-bounded core of `str.replace`; with fuel at least the subject's
length it scans the whole subject (structural recursion keeps it kernel-
evaluable). -/
def pyReplaceF (pat rep : List Char) : Nat → List Char → List Char
  | _, [] => []
  | 0, s => s
  | fuel + 1, a :: t =>
    if pat.isPrefixOf (a :: t) then
      rep ++ pyReplaceF pat rep fuel (t.drop (pat.length - 1))
    else
      a :: pyReplaceF pat rep fuel t

/-- Python `str.replace(pat, rep)`: leftmost, non-overlapping replacement of
every occurrence (for non-empty `pat`). -/
def pyReplace (pat rep s : List Char) : List Char := pyReplaceF pat rep s.length s

/-- Substring containment test (`pat` occurs contiguously in the list). -/
def hasSub (pat : List Char) : List Char → Bool
  | [] => pat.isEmpty
  | a :: t => pat.isPrefixOf (a :: t) || hasSub pat t

/-- Substring containment at the `String` level. -/
def strContains (s pat : String) : Bool := hasSub pat.data s.data

/-! ### Regex substitution engine

`re.sub` scans the subject left to right; at each position it tries the
pattern, and on a match emits the replacement and resumes right after the
match.  Every pattern used by `_to_plain_text` matches deterministically (the
only backtracking points are provably fruitless), so each one is embedded as
a matcher `List Char → Option (List Char × Nat)` returning the replacement
text and `matchLength - 1` (all the source's patterns match at least one
character). -/

/-- Fuel-bounded core of the substitution scan; with fuel at least the
subject's length it scans the whole subject. -/
def reSubF (m : List Char → Option (List Char × Nat)) : Nat → List Char → List Char
  | _, [] => []
  | 0, s => s
  | fuel + 1, c :: cs =>
    match m (c :: cs) with
    | some (rep, extra) => rep ++ reSubF m fuel (cs.drop extra)
    | none => c :: reSubF m fuel cs

/-- Leftmost, non-overlapping substitution driven by matcher `m`; a result
`some (rep, extra)` of `m` stands for a match of `extra + 1` characters. -/
def reSub (m : List Char → Option (List Char × Nat)) (s : List Char) : List Char :=
  reSubF m s.length s

/-- Case-insensitive prefix test (ASCII lowercasing, as `re.IGNORECASE`
behaves on the tag alphabet involved). -/
def ciIsPrefix : List Char → List Char → Bool
  | [], _ => true
  | _ :: _, [] => false
  | p :: ps, c :: cs => (p.toLower == c.toLower) && ciIsPrefix ps cs

/-- Matcher for `<br\s*/?>` (IGNORECASE), replaced by a newline. -/
def matchBr (s : List Char) : Option (List Char × Nat) :=
  if ciIsPrefix ['<', 'b', 'r'] s then
    let rest := s.drop 3
    let w := rest.takeWhile isPyWs
    match rest.drop w.length with
    | '/' :: '>' :: _ => some (['\n'], 3 + w.length + 2 - 1)
    | '>' :: _ => some (['\n'], 3 + w.length + 1 - 1)
    | _ => none
  else none

/-- The block-level tag names of the source's paragraph/div regexes. -/
def blockNames : List (List Char) :=
  [['p'], ['d', 'i', 'v'], ['s', 'e', 'c', 't', 'i', 'o', 'n'],
   ['a', 'r', 't', 'i', 'c', 'l', 'e'], ['f', 'i', 'g', 'u', 'r', 'e']]

/-- Matcher for `</(p|div|section|article|figure)>` (IGNORECASE), replaced by
a blank line. -/
def matchCloseBlock (s : List Char) : Option (List Char × Nat) :=
  match blockNames.find? (fun n => ciIsPrefix ('<' :: '/' :: n ++ ['>']) s) with
  | some n => some (['\n', '\n'], n.length + 2)
  | none => none

/-- Matcher for `<NAME[^>]*>` given candidate tag names: the opening `<NAME`
followed by the run of non-`>` characters up to the first `>`. -/
def matchOpenTag (names : List (List Char)) (rep : List Char) (s : List Char) :
    Option (List Char × Nat) :=
  match names.find? (fun n => ciIsPrefix ('<' :: n) s) with
  | some n =>
    match (s.drop (n.length + 1)).findIdx? (fun c => c == '>') with
    | some i => some (rep, n.length + 1 + i)
    | none => none
  | none => none

/-- Matcher for `<h[1-6][^>]*>` (IGNORECASE), replaced by a blank line. -/
def matchHOpen (s : List Char) : Option (List Char × Nat) :=
  match s with
  | '<' :: c :: d :: rest =>
    if (c.toLower == 'h') && (['1', '2', '3', '4', '5', '6'].contains d) then
      match rest.findIdx? (fun x => x == '>') with
      | some i => some (['\n', '\n'], 3 + i)
      | none => none
    else none
  | _ => none

/-- Matcher for `</h[1-6]>` (IGNORECASE), replaced by a blank line. -/
def matchHClose (s : List Char) : Option (List Char × Nat) :=
  match s with
  | '<' :: sl :: c :: d :: '>' :: _ =>
    if (sl == '/') && (c.toLower == 'h') && (['1', '2', '3', '4', '5', '6'].contains d) then
      some (['\n', '\n'], 4)
    else none
  | _ => none

/-- Matcher for a case-insensitive literal. -/
def matchCiLit (pat rep : List Char) (s : List Char) : Option (List Char × Nat) :=
  if ciIsPrefix pat s then some (rep, pat.length - 1) else none

/-- Matcher for `<[^>]+>` (the source's `HTML_TAG_RE`), removed. -/
def matchAnyTag (s : List Char) : Option (List Char × Nat) :=
  match s with
  | '<' :: rest =>
    match rest.findIdx? (fun c => c == '>') with
    | some 0 => none
    | some (i + 1) => some ([], i + 2)
    | none => none
  | _ => none

/-- Scan for the closing `**` of `\*\*(.*?)\*\*`: the shortest same-line
prefix up to a `**`; returns the group and the characters consumed including
the closing delimiter. -/
def scanClose2 : List Char → Option (List Char × Nat)
  | '*' :: '*' :: _ => some ([], 2)
  | c :: cs =>
    if c == '\n' then none
    else (scanClose2 cs).map (fun gn => (c :: gn.1, gn.2 + 1))
  | [] => none

/-- Matcher for `\*\*(.*?)\*\*`, replaced by the group. -/
def matchStar2 (s : List Char) : Option (List Char × Nat) :=
  match s with
  | '*' :: '*' :: rest => (scanClose2 rest).map (fun gn => (gn.1, gn.2 + 1))
  | _ => none

/-- Scan for the closing `*` of `\*(.*?)\*`. -/
def scanClose1 : List Char → Option (List Char × Nat)
  | '*' :: _ => some ([], 1)
  | c :: cs =>
    if c == '\n' then none
    else (scanClose1 cs).map (fun gn => (c :: gn.1, gn.2 + 1))
  | [] => none

/-- Matcher for `\*(.*?)\*`, replaced by the group. -/
def matchStar1 (s : List Char) : Option (List Char × Nat) :=
  match s with
  | '*' :: rest => (scanClose1 rest).map (fun gn => (gn.1, gn.2))
  | _ => none

/-- Scan for the closing backtick of a code span. -/
def scanTick : List Char → Option (List Char × Nat)
  | '`' :: _ => some ([], 1)
  | c :: cs => (scanTick cs).map (fun gn => (c :: gn.1, gn.2 + 1))
  | [] => none

/-- Matcher for a backtick code span (one or more non-backtick characters
between backticks), replaced by the inner text. -/
def matchTick (s : List Char) : Option (List Char × Nat) :=
  match s with
  | '`' :: rest =>
    match scanTick rest with
    | some ([], _) => none
    | some (g, n) => some (g, n)
    | none => none
  | _ => none

/-- Matcher for `\n{3,}`, collapsed to exactly two newlines. -/
def matchNl3 (s : List Char) : Option (List Char × Nat) :=
  let r := s.takeWhile (fun c => c == '\n')
  if 3 ≤ r.length then some (['\n', '\n'], r.length - 1) else none

/-- Try the `MULTILINE`-anchored `^\s*#+\s*` at a line start: maximal
whitespace run, then one or more `#`, then maximal whitespace run.  Returns
`matchLength - 1` and whether the position after the match is again a line
start (its last consumed character is a newline). -/
def matchHeading (s : List Char) : Option (Nat × Bool) :=
  let w := s.takeWhile isPyWs
  let rest := s.drop w.length
  let h := rest.takeWhile (fun c => c == '#')
  if h.isEmpty then none
  else
    let w2 := (rest.drop h.length).takeWhile isPyWs
    let lastC := (w2.getLast?).getD '#'
    some (w.length + h.length + w2.length - 1, lastC == '\n')

/-- Fuel-bounded core of the `MULTILINE` heading pass; the flag tracks
whether the current position is a line start (`^`). -/
def headingSubF : Nat → Bool → List Char → List Char
  | _, _, [] => []
  | 0, _, s => s
  | fuel + 1, atStart, c :: cs =>
    if atStart then
      match matchHeading (c :: cs) with
      | some (extra, nxt) => headingSubF fuel nxt (cs.drop extra)
      | none => c :: headingSubF fuel (c == '\n') cs
    else c :: headingSubF fuel (c == '\n') cs

/-- The `re.sub(r"^\s*#+\s*", "", text, flags=re.MULTILINE)` pass. -/
def headingSub (atStart : Bool) (s : List Char) : List Char :=
  headingSubF s.length atStart s

/-- The `_to_plain_text` inner function of `parse_model_output`, pass for
pass in the source's order. -/
def toPlainTextL (value : List Char) : List Char :=
  let t := pyReplace ['\r', '\n'] ['\n'] value
  let t := pyReplace ['\r'] ['\n'] t
  let t := pyReplace ['&', 'n', 'b', 's', 'p', ';'] [' '] t
  let t := reSub matchBr t
  let t := reSub matchCloseBlock t
  let t := reSub (matchOpenTag blockNames []) t
  let t := reSub matchHOpen t
  let t := reSub matchHClose t
  let t := reSub (matchOpenTag [['f', 'i', 'g', 'c', 'a', 'p', 't', 'i', 'o', 'n']] []) t
  let t := reSub (matchCiLit ['<', '/', 'f', 'i', 'g', 'c', 'a', 'p', 't', 'i', 'o', 'n', '>'] ['\n']) t
  let t := reSub (matchOpenTag [['l', 'i']] ['-', ' ']) t
  let t := reSub (matchCiLit ['<', '/', 'l', 'i', '>'] ['\n']) t
  let t := reSub matchAnyTag t
  let t := headingSub true t
  let t := reSub matchStar2 t
  let t := reSub matchStar1 t
  let t := reSub matchTick t
  let t := pyReplace ['•', ' '] [] t
  let t := pyReplace ['-', ' '] [] t
  let t := reSub matchNl3 t
  pyStripL t

/-- `_to_plain_text` on `String`s. -/
def toPlainText (s : String) : String := ⟨toPlainTextL s.data⟩

/-! ### Code-fence stripping -/

/-- The triple-backtick delimiter. -/
def fence : List Char := ['`', '`', '`']

/-- Python `inner.split("\n", 1)`: `some (before, after)` at the first
newline, `none` when the string has no newline. -/
def splitFirstNl : List Char → Option (List Char × List Char)
  | [] => none
  | '\n' :: rest => some ([], rest)
  | c :: rest => (splitFirstNl rest).map (fun p => (c :: p.1, p.2))

/-- The bare language tag accepted on the first fenced line. -/
def langTagJson : List Char := ['j', 's', 'o', 'n']

/-- ASCII `str.lower()`. -/
def asciiLower (s : List Char) : List Char := s.map Char.toLower

/-- The source's wrapped-in-a-code-block condition: the stripped text starts
and ends with a triple backtick. -/
def isFenceWrapped (s : String) : Bool :=
  fence.isPrefixOf (pyStripL s.data) && fence.isSuffixOf (pyStripL s.data)

/-- `_strip_code_fences` on a character list. -/
def stripCodeFencesL (text : List Char) : List Char :=
  let cleaned := pyStripL text
  if fence.isPrefixOf cleaned && fence.isSuffixOf cleaned then
    let d := cleaned.drop 3
    let inner := d.take (d.length - 3)
    match splitFirstNl inner with
    | some (firstLine, rest) =>
      if asciiLower (pyStripL firstLine) == langTagJson || (pyStripL firstLine).isEmpty then
        pyStripL rest
      else pyStripL inner
    | none => pyStripL inner
  else cleaned

/-- `_strip_code_fences`. -/
def _strip_code_fences (text : String) : String := ⟨stripCodeFencesL text.data⟩

/-! ### JSON values and `json.loads`

`json.loads` is Python standard-library code, not part of this repository.
Modelled from the spec: "Step 2 — structural parse: parse the cleaned text as
a JSON object; a parse failure fails with `MalformedOutput`."  The value type
keeps objects as ordered member lists; lookups take the last binding of a
key, matching dict construction order.  Number values are kept as their raw
lexeme, which is enough because the pipeline never reads a numeric value. -/

inductive Json where
  | null
  | bool (b : Bool)
  | num (lexeme : List Char)
  | str (s : List Char)
  | arr (elems : List Json)
  | obj (members : List (List Char × Json))

/-- JSON inter-token whitespace. -/
def jsonWs (c : Char) : Bool := c == ' ' || c == '\t' || c == '\n' || c == '\r'

/-- Hexadecimal digit value. -/
def hexVal (c : Char) : Option Nat :=
  if '0' ≤ c && c ≤ '9' then some (c.toNat - 48)
  else if 'a' ≤ c && c ≤ 'f' then some (c.toNat - 87)
  else if 'A' ≤ c && c ≤ 'F' then some (c.toNat - 70)
  else none

/-- Fuel-bounded decoder for the body of a JSON string (after the opening
quote), handling the standard escapes; returns the decoded characters and
the remainder after the closing quote. -/
def parseStrCharsF : Nat → List Char → Option (List Char × List Char)
  | _, [] => none
  | 0, _ => none
  | fuel + 1, s =>
    match s with
    | [] => none
    | '"' :: rest => some ([], rest)
    | '\\' :: e :: rest =>
      match e with
      | '"' => (parseStrCharsF fuel rest).map (fun p => ('"' :: p.1, p.2))
      | '\\' => (parseStrCharsF fuel rest).map (fun p => ('\\' :: p.1, p.2))
      | '/' => (parseStrCharsF fuel rest).map (fun p => ('/' :: p.1, p.2))
      | 'b' => (parseStrCharsF fuel rest).map (fun p => ('\x08' :: p.1, p.2))
      | 'f' => (parseStrCharsF fuel rest).map (fun p => ('\x0c' :: p.1, p.2))
      | 'n' => (parseStrCharsF fuel rest).map (fun p => ('\n' :: p.1, p.2))
      | 'r' => (parseStrCharsF fuel rest).map (fun p => ('\r' :: p.1, p.2))
      | 't' => (parseStrCharsF fuel rest).map (fun p => ('\t' :: p.1, p.2))
      | 'u' =>
        match rest with
        | h1 :: h2 :: h3 :: h4 :: rest' =>
          match hexVal h1, hexVal h2, hexVal h3, hexVal h4 with
          | some a, some b, some c, some d =>
            (parseStrCharsF fuel rest').map
              (fun p => (Char.ofNat (((a * 16 + b) * 16 + c) * 16 + d) :: p.1, p.2))
          | _, _, _, _ => none
        | _ => none
      | _ => none
    | c :: rest => (parseStrCharsF fuel rest).map (fun p => (c :: p.1, p.2))

/-- Decode a JSON string body. -/
def parseStrChars (s : List Char) : Option (List Char × List Char) :=
  parseStrCharsF s.length s

/-- Characters a number lexeme may contain. -/
def numChar (c : Char) : Bool :=
  c.isDigit || c == '-' || c == '+' || c == '.' || c == 'e' || c == 'E'

/-- Parse one or more object members with value parser `pv`, positioned at a
key. -/
def parseObjMembers (pv : List Char → Option (Json × List Char)) :
    Nat → List Char → Option (List (List Char × Json) × List Char)
  | 0, _ => none
  | fuel + 1, s =>
    match s.dropWhile jsonWs with
    | '"' :: r =>
      match parseStrChars r with
      | none => none
      | some (key, afterKey) =>
        match afterKey.dropWhile jsonWs with
        | ':' :: afterColon =>
          match pv afterColon with
          | none => none
          | some (v, afterVal) =>
            match afterVal.dropWhile jsonWs with
            | ',' :: afterComma =>
              match parseObjMembers pv fuel afterComma with
              | some (ms, rest) => some ((key, v) :: ms, rest)
              | none => none
            | '}' :: rest => some ([(key, v)], rest)
            | _ => none
        | _ => none
    | _ => none

/-- Parse one or more array elements with value parser `pv`. -/
def parseArrElems (pv : List Char → Option (Json × List Char)) :
    Nat → List Char → Option (List Json × List Char)
  | 0, _ => none
  | fuel + 1, s =>
    match pv s with
    | none => none
    | some (v, afterVal) =>
      match afterVal.dropWhile jsonWs with
      | ',' :: afterComma =>
        match parseArrElems pv fuel afterComma with
        | some (es, rest) => some (v :: es, rest)
        | none => none
      | ']' :: rest => some ([v], rest)
      | _ => none

/-- Parse one JSON value (fuel-bounded recursive descent; the fuel bounds
the bracket-nesting depth, the member loops carry their own fuel). -/
def parseValue : Nat → List Char → Option (Json × List Char)
  | 0, _ => none
  | fuel + 1, s =>
    match s.dropWhile jsonWs with
    | '{' :: r =>
      (match r.dropWhile jsonWs with
       | '}' :: r' => some (Json.obj [], r')
       | _ =>
         match parseObjMembers (parseValue fuel) (r.length + 1) r with
         | some (ms, rest) => some (Json.obj ms, rest)
         | none => none)
    | '[' :: r =>
      (match r.dropWhile jsonWs with
       | ']' :: r' => some (Json.arr [], r')
       | _ =>
         match parseArrElems (parseValue fuel) (r.length + 1) r with
         | some (es, rest) => some (Json.arr es, rest)
         | none => none)
    | '"' :: r => (parseStrChars r).map (fun p => (Json.str p.1, p.2))
    | 't' :: 'r' :: 'u' :: 'e' :: r => some (Json.bool true, r)
    | 'f' :: 'a' :: 'l' :: 's' :: 'e' :: r => some (Json.bool false, r)
    | 'n' :: 'u' :: 'l' :: 'l' :: r => some (Json.null, r)
    | c :: r =>
      if c.isDigit || c == '-' then
        let lex := (c :: r).takeWhile numChar
        some (Json.num lex, (c :: r).drop lex.length)
      else none
    | [] => none

/-- Modelled from the spec: Python's `json.loads` — parse one value,
requiring the whole input to be consumed (up to trailing whitespace). -/
def jsonLoads (s : List Char) : Option Json :=
  match parseValue (s.length + 1) s with
  | some (j, rest) => if (rest.dropWhile jsonWs).isEmpty then some j else none
  | none => none

/-! ### `parse_model_output` -/

/-- `dict.get` on an object's member list: the last binding of the key wins,
as when `json.loads` builds the dict. -/
def jget (ms : List (List Char × Json)) (key : List Char) : Option Json :=
  match ms with
  | [] => none
  | (k, v) :: rest =>
    match jget rest key with
    | some r => some r
    | none => if k == key then some v else none

/-- Field lookup on an arbitrary JSON value (`none` off objects). -/
def jgetV : Json → List Char → Option Json
  | .obj ms, k => jget ms k
  | _, _ => none

/-- The ways `parse_model_output` raises, one per `raise` site (plus the
`AttributeError` of calling `.get` on a non-dict parse result). -/
inductive PmError where
  | jsonDecode
  | notDict
  | badHeadlines
  | badSubheadlines
  | badArticle
deriving DecidableEq, Repr

/-- The validated result dict of `parse_model_output`. -/
structure PmResult where
  headlines : List String
  subheadlines : List String
  article : String
  article_raw : String
deriving DecidableEq, Repr

/-- A JSON string's characters, if the value is a string. -/
def jsonStr? : Json → Option (List Char)
  | .str s => some s
  | _ => none

/-- All elements as strings, when every element is a JSON string. -/
def allStr? : List Json → Option (List (List Char))
  | [] => some []
  | j :: rest =>
    match jsonStr? j, allStr? rest with
    | some s, some ss => some (s :: ss)
    | _, _ => none

/-- The source's `isinstance(x, list) and len(x) == 10 and all(isinstance(i,
str) for i in x)` check, returning the element strings when it passes. -/
def strArray10? : Option Json → Option (List (List Char))
  | some (.arr l) => if l.length = 10 then allStr? l else none
  | _ => none

/-- Whether an `Except` is a success. -/
def isOkE {ε α : Type} : Except ε α → Bool
  | .ok _ => true
  | .error _ => false

/-- Whether an optional JSON value is an array of exactly ten elements
(irrespective of the element types). -/
def isLen10Arr : Option Json → Bool
  | some (.arr l) => l.length == 10
  | _ => false

/-- Whether an optional JSON value is a string that is non-blank after
trimming. -/
def isNonBlankStr : Option Json → Bool
  | some (.str s) => !(pyStripL s).isEmpty
  | _ => false

/-- The key `"headlines"`. -/
def keyHeadlines : List Char := ['h', 'e', 'a', 'd', 'l', 'i', 'n', 'e', 's']

/-- The key `"subheadlines"`. -/
def keySubheadlines : List Char :=
  ['s', 'u', 'b', 'h', 'e', 'a', 'd', 'l', 'i', 'n', 'e', 's']

/-- The key `"article"`. -/
def keyArticle : List Char := ['a', 'r', 't', 'i', 'c', 'l', 'e']

/-- `parse_model_output`: strip fences, parse JSON, validate the shape, and
normalize every text field with `_to_plain_text`. -/
def parse_model_output (raw : String) : Except PmError PmResult :=
  let cleaned := _strip_code_fences raw
  match jsonLoads cleaned.data with
  | none => .error .jsonDecode
  | some (Json.obj ms) =>
    match strArray10? (jget ms keyHeadlines) with
    | none => .error .badHeadlines
    | some hs =>
      match strArray10? (jget ms keySubheadlines) with
      | none => .error .badSubheadlines
      | some ss =>
        match jget ms keyArticle with
        | some (.str a) =>
          if (pyStripL a).isEmpty then .error .badArticle
          else
            .ok ⟨hs.map (fun h => ⟨toPlainTextL h⟩), ss.map (fun h => ⟨toPlainTextL h⟩),
                 ⟨toPlainTextL a⟩, ⟨a⟩⟩
        | _ => .error .badArticle
  | some _ => .error .notDict

/-! ### Model invocation with ordered fallback -/

/-- The empty string (named so that literals never directly follow a name). -/
def emptyS : String := ""

/-- A text part of a response candidate's content. -/
structure Part where
  text : String

/-- A response candidate's content. -/
structure Content where
  parts : List Part

/-- One response candidate; `content` may be missing/falsy. -/
structure RespCandidate where
  content : Option Content

/-- The generation endpoint's response shape: an aggregated `text` (empty
models a missing/falsy attribute) and a candidate list. -/
structure Response where
  text : String
  candidates : List RespCandidate

/-- `"\n".join` on character lists. -/
def joinNlL : List (List Char) → List Char
  | [] => []
  | [x] => x
  | x :: y :: rest => x ++ '\n' :: joinNlL (y :: rest)

/-- `_extract_text_from_response`. -/
def _extract_text_from_response (r : Response) : String :=
  if r.text ≠ emptyS then r.text
  else
    let texts := (r.candidates.map (fun c =>
      match c.content with
      | none => []
      | some ct => (ct.parts.map Part.text).filter (fun t => t ≠ emptyS))).flatten
    if texts ≠ [] then ⟨joinNlL (texts.map String.data)⟩
    else emptyS

/-- The sentinel returned when a successful call has no extractable text:
"生成結果をテキストとして取得できませんでした。". -/
def SENTINEL : String := "生成結果をテキストとして取得できませんでした。"

/-- The `"models/"` identifier namespace. -/
def modelsPre : String := "models/"

/-- The order-preserving, emptiness- and duplicate-dropping loop of
`_candidate_model_names`. -/
def dedupeNE (seen : List String) : List String → List String
  | [] => []
  | x :: rest =>
    if x ≠ emptyS ∧ x ∉ seen then x :: dedupeNE (x :: seen) rest
    else dedupeNE seen rest

/-- `_candidate_model_names`: the name itself plus its alternate form
(canonical `models/x` versus bare alias `x`); `split("models/", 1)[1]` on a
name that starts with `models/` drops its first seven characters. -/
def _candidate_model_names (m : String) : List String :=
  let second : String :=
    if modelsPre.data.isPrefixOf m.data then ⟨m.data.drop 7⟩ else modelsPre ++ m
  dedupeNE [] [m, second]

/-- The outcome of one generation call, as classified by the source's
exception handling: a usable response, a `NotFound` (tagged so distinct
errors are distinguishable), or any other exception. -/
inductive CallOutcome where
  | success (resp : Response)
  | notFound (tag : Nat)
  | failure (tag : Nat)

/-- Whether an outcome is the `NotFound` class. -/
def CallOutcome.isNF : CallOutcome → Bool
  | .notFound _ => true
  | _ => false

/-- How one invocation of `generate_press_release` can raise. -/
inductive GenError where
  | notFound (tag : Nat)
  | other (tag : Nat)
  | invocationFailed
deriving DecidableEq, Repr

/-- `raise last_error` / `raise RuntimeError(...)` at candidate exhaustion. -/
def lastErr : Option Nat → GenError
  | some t => .notFound t
  | none => .invocationFailed

/-- The candidate loop of `generate_press_release` over the flattened
candidate sequence, threading `last_error` and also recording the list of
attempted candidates (one generation call each). -/
def runCandidates (oracle : String → CallOutcome) :
    List String → Option Nat → Except GenError String × List String
  | [], last => (.error (lastErr last), [])
  | name :: rest, last =>
    match oracle name with
    | .success resp =>
      (if _extract_text_from_response resp = emptyS then .ok SENTINEL
       else .ok (_extract_text_from_response resp), [name])
    | .notFound t =>
      ((runCandidates oracle rest (some t)).1,
       name :: (runCandidates oracle rest (some t)).2)
    | .failure t => (.error (.other t), [name])

/-- The nested loop `for model_name in model_names: for candidate_name in
_candidate_model_names(model_name)` visits exactly this flattened sequence. -/
def expandedCandidates : List String → List String
  | [] => []
  | n :: rest => _candidate_model_names n ++ expandedCandidates rest

/-- `generate_press_release`, with the external endpoint abstracted as an
oracle from candidate name to call outcome. -/
def generate_press_release (oracle : String → CallOutcome) (model_names : List String) :
    Except GenError String :=
  (runCandidates oracle (expandedCandidates model_names) none).1

/-- The generation calls (attempted candidates, in order) made by one
invocation of `generate_press_release`. -/
def generationCalls (oracle : String → CallOutcome) (model_names : List String) :
    List String :=
  (runCandidates oracle (expandedCandidates model_names) none).2

/-! ### `build_prompt` -/

/-- One entry of a source's extracted-image manifest. -/
structure SrcImage where
  filename : String
  page : Option Int

/-- One uploaded source: name, extracted text, image manifest. -/
structure Source where
  name : String
  content : String
  images : List SrcImage

/-- "# 追加指示" (additional-instructions header). -/
def addInstrHeader : String := "# 追加指示"

/-- The no-special-instructions placeholder line. -/
def noInstr : String := "特別な追加指示はありません。"

/-- "# 参考資料" (reference-material header). -/
def refHeader : String := "# 参考資料"

/-- The no-reference-material placeholder line. -/
def noSources : String := "(参考資料はアップロードされていません。)"

/-- The empty-body placeholder for a source with blank content. -/
def noBody : String := "(本文なし)"

/-- "### 添付画像リスト" (attached-image list header). -/
def imgListHeader : String := "### 添付画像リスト"

/-- The closing instruction sentence. -/
def closingLine : String := "これらの情報をもとに、プレスリリース記事を作成してください。"

/-- The strict output-format directive appended to every prompt. -/
def OUTPUT_FORMAT_INSTRUCTIONS : String :=
  "# 出力フォーマット\n必ず JSON 形式のみで回答してください。コードブロックや追加の説明文は一切付けないでください。\n構造は次の通りです。\n\x7b\n  \"headlines\": [\"見出し案1\", ..., \"見出し案10\"],\n  \"subheadlines\": [\"小見出し案1\", ..., \"小見出し案10\"],\n  \"article\": \"本文全体（純粋なプレーンテキスト。HTMLタグやMarkdown記法を含めない）\"\n\x7d\n- \"headlines\" と \"subheadlines\" の配列は必ず10個の要素を含めてください。\n- 文字列内の改行は \n で表現し、ダブルクォートはエスケープしてください。\n- HTMLタグやMarkdown記法を含めず、プレーンテキストのみで記述してください。\n- JSON 以外の文字・コメントは出力しないでください。"

/-- `"\n".join` on strings. -/
def joinNl (lines : List String) : String :=
  ⟨joinNlL (lines.map String.data)⟩

/-- The `f"- {filename}" (+ f" (ページ {page})" when the page is truthy)`
manifest line for one image. -/
def imgLine (img : SrcImage) : String :=
  let base : String := ⟨'-' :: ' ' :: img.filename.data⟩
  match img.page with
  | some p => if p ≠ 0 then base ++ " (ページ " ++ toString p ++ ")" else base
  | none => base

/-- The prompt lines contributed by one source. -/
def sourceLines (s : Source) : List String :=
  [⟨'#' :: '#' :: ' ' :: s.name.data⟩,
   if pyStrip s.content = emptyS then noBody else pyStrip s.content] ++
  (if s.images.isEmpty then [] else imgListHeader :: s.images.map imgLine) ++
  [emptyS]

/-- `build_prompt`. -/
def build_prompt (base_prompt instructions : String) (sources : List Source) : String :=
  let l1 : List String :=
    [pyStrip base_prompt, emptyS, addInstrHeader,
     if pyStrip instructions = emptyS then noInstr else pyStrip instructions, emptyS]
  let l2 : List String :=
    if sources.isEmpty then [noSources]
    else refHeader :: sources.foldr (fun s acc => sourceLines s ++ acc) []
  let l3 : List String := [closingLine, emptyS, OUTPUT_FORMAT_INSTRUCTIONS]
  pyStrip (joinNl (l1 ++ l2 ++ l3))

/-! ### Concrete inputs used by the claims -/

/-- A raw model reply with the required shape whose article is pure block
markup. -/
def rawEmptyMarkup : String :=
  "\x7b\"headlines\": [\"a\",\"a\",\"a\",\"a\",\"a\",\"a\",\"a\",\"a\",\"a\",\"a\"], \"subheadlines\": [\"b\",\"b\",\"b\",\"b\",\"b\",\"b\",\"b\",\"b\",\"b\",\"b\"], \"article\": \"<p></p>\"\x7d"

/-- The end-to-end scenario reply of the spec. -/
def rawScenario : String :=
  "\x7b\"headlines\": [\"H1\",\"H2\",\"H3\",\"H4\",\"H5\",\"H6\",\"H7\",\"H8\",\"H9\",\"H10\"], \"subheadlines\": [\"S1\",\"S2\",\"S3\",\"S4\",\"S5\",\"S6\",\"S7\",\"S8\",\"S9\",\"S10\"], \"article\": \"<p>Para one</p><p>Para two</p>\"\x7d"

/-- The expected scenario result. -/
def scenarioResult : PmResult :=
  ⟨[r"H1", r"H2", r"H3", r"H4", r"H5", r"H6", r"H7", r"H8", r"H9", r"H10"],
   [r"S1", r"S2", r"S3", r"S4", r"S5", r"S6", r"S7", r"S8", r"S9", r"S10"],
   "Para one\n\nPara two", "<p>Para one</p><p>Para two</p>"⟩

/-- The result `parse_model_output` produces for `rawEmptyMarkup`. -/
def emptyMarkupResult : PmResult :=
  ⟨List.replicate 10 (r"a"), List.replicate 10 (r"b"), emptyS, r"<p></p>"⟩

/-- A list-item wrapping a Markdown heading marker — list and heading markup
from the recognized subset. -/
def liHashInput : String := "<li># x</li>"

/-- An article string in which removing the bullet marker re-creates a
`"- "` occurrence. -/
def dashCreation : String := "--  x"

/-- The bullet marker `"- "`. -/
def dashSpace : String := "- "

/-- Prose with an incidental `"- "` occurrence. -/
def tenToTwenty : String := "10 - 20"

/-- An oracle under which every generation call raises the not-found
error. -/
def oracleAllNF : String → CallOutcome := fun _ => .notFound 0

/-- A one-element model-name list. -/
def singleModelA : List String := [r"a"]

/-- A no-wrapper input with surrounding whitespace. -/
def spacedHello : String := "  hello  "

/-- The canonical identifier of the first fallback group. -/
def mASlash : String := "models/a"

/-- The canonical identifier of the second fallback group. -/
def mBSlash : String := "models/b"

/-- A response carrying aggregated text. -/
def respText : Response := ⟨r"text", []⟩

/-- Oracle of the spec's fallback scenario: `models/a` and `a` are not
found, `models/b` succeeds with non-empty text. -/
def oracleAB : String → CallOutcome :=
  fun s => if s = mBSlash then .success respText else .notFound 7

/-- Oracle raising distinguishable not-found errors per candidate. -/
def oracleTagged : String → CallOutcome :=
  fun s => if s = mASlash then .notFound 1 else .notFound 2

/-- Oracle whose second candidate raises a non-not-found error. -/
def oracleFail : String → CallOutcome :=
  fun s => if s = mASlash then .notFound 1 else .failure 5

/-- A reply whose `headlines` value is an empty array. -/
def rawShort : String := "\x7b\"headlines\": []\x7d"

/-- The parse of `rawShort`. -/
def shortJson : Json := Json.obj [(keyHeadlines, Json.arr [])]

/-- Wrap a body in a ```` ```json ```` fenced block. -/
def wrapJson (body : String) : String :=
  ⟨['`', '`', '`', 'j', 's', 'o', 'n', '\n'] ++ body.data ++ ['\n', '`', '`', '`']⟩

/-! ## Theorems -/

/-- `hasSub` decides `List.IsInfix`. -/
theorem hasSub_spec (pat s : List Char) : hasSub pat s = true ↔ pat <:+: s := by
  induction s with
  | nil =>
    simp only [hasSub, List.isEmpty_iff]
    constructor
    · intro h; simp [h]
    · intro h; simpa using h.length_le
  | cons a t ih =>
    simp only [hasSub, Bool.or_eq_true, List.isPrefixOf_iff_prefix, ih,
      List.infix_cons_iff]

/-- C7: on the end-to-end scenario reply (ten headline literals, ten
subheadline literals, a two-paragraph HTML article) `parse_model_output`
succeeds, the two paragraphs are separated by exactly one blank line, and
the headline/subheadline sequences equal the input literals in order. -/
theorem parse_model_output_scenario :
    parse_model_output rawScenario = Except.ok scenarioResult := by rfl

/-- C3: the plain-text pass is not idempotent on the recognized markup
subset: `<li># x</li>` (list markup around a Markdown heading marker)
normalizes to `# x`, which a second pass strips further to `x` — the bullet
marker is removed only after the heading-marker pass has already run, so the
first pass can surface a fresh line-leading `#`. -/
theorem to_plain_text_not_idempotent :
    toPlainText liHashInput = (r"# x") ∧ toPlainText (r"# x") = (r"x") ∧
      toPlainText (toPlainText liHashInput) ≠ toPlainText liHashInput := by
  refine ⟨rfl, rfl, ?_⟩
  decide

/-- C1 (counterexample): the reply `rawEmptyMarkup` is accepted by
`parse_model_output`, yet its article normalizes to the empty string — the
code only requires the raw article to be non-blank, so "non-empty after
normalization" fails. -/
theorem parse_model_output_accepts_empty_normalized_article :
    parse_model_output rawEmptyMarkup = Except.ok emptyMarkupResult ∧
      emptyMarkupResult.article = emptyS := by
  exact ⟨by rfl, rfl⟩

/-- C6 (counterexample): with one model name `"a"` whose two identifier
variants both raise not-found, `generate_press_release` makes two generation
calls — more than the length of the list it was passed. -/
theorem generation_calls_exceed_name_count :
    generationCalls oracleAllNF singleModelA = [r"a", r"models/a"] ∧
      ¬ (generationCalls oracleAllNF singleModelA).length ≤ singleModelA.length := by
  exact ⟨by rfl, by decide⟩

/-- C8 (counterexample): on the wrapper-free input `"  hello  "`,
`_strip_code_fences` is not the identity — it also trims the surrounding
whitespace. -/
theorem strip_code_fences_not_identity :
    isFenceWrapped spacedHello = false ∧ _strip_code_fences spacedHello ≠ spacedHello := by
  exact ⟨by rfl, by decide⟩

/-- C10 (counterexample): normalizing `"--  x"` yields `"- x"`, which still
contains the substring `"- "` — removing one bullet occurrence re-creates
another at the junction. -/
theorem normalized_output_contains_dash_space :
    toPlainText dashCreation = (r"- x") ∧
      strContains (toPlainText dashCreation) dashSpace = true := by
  exact ⟨by rfl, by rfl⟩

/-- `pyReplaceF` on the empty subject. -/
theorem pyReplaceF_nil (pat rep : List Char) (fuel : Nat) :
    pyReplaceF pat rep fuel [] = [] := by
  cases fuel <;> rfl

/-- A single marker-removal pass (`x.replace(m ++ " ", "")`) leaves no
occurrence of the marker-space pattern, provided the subject never doubles
the marker character: every input occurrence is consumed, and a junction can
only re-create one right after a doubled marker. -/
theorem noRecreate (c : Char) (hc : ¬ c = ' ') :
    ∀ fuel s, s.length ≤ fuel → hasSub [c, c] s = false →
      hasSub [c, ' '] (pyReplaceF [c, ' '] [] fuel s) = false := by
  intro fuel
  induction fuel with
  | zero =>
    intro s hs _
    have hnil : s = [] := List.eq_nil_of_length_eq_zero (Nat.le_zero.mp hs)
    subst hnil
    simp [pyReplaceF_nil, hasSub]
  | succ fuel ih =>
    intro s hs hcc
    cases s with
    | nil => simp [pyReplaceF_nil, hasSub]
    | cons a t =>
      have hccT : hasSub [c, c] t = false := by
        have := hcc
        simp only [hasSub, Bool.or_eq_false_iff] at this
        exact this.2
      by_cases hpre : [c, ' '].isPrefixOf (a :: t) = true
      · -- a match at the head: a = c, t = ' ' :: t₂
        simp only [List.isPrefixOf, Bool.and_eq_true, beq_iff_eq] at hpre
        obtain ⟨hac, hrest⟩ := hpre
        cases t with
        | nil => simp [List.isPrefixOf] at hrest
        | cons b t₂ =>
          simp only [List.isPrefixOf, Bool.and_eq_true, beq_iff_eq] at hrest
          obtain ⟨hbsp, -⟩ := hrest
          subst hac hbsp
          have hstep : pyReplaceF [c, ' '] [] (fuel + 1) (c :: ' ' :: t₂) =
              pyReplaceF [c, ' '] [] fuel t₂ := by
            simp [pyReplaceF, List.isPrefixOf]
          rw [hstep]
          have hccT₂ : hasSub [c, c] t₂ = false := by
            simp only [hasSub, Bool.or_eq_false_iff] at hccT
            exact hccT.2
          exact ih t₂ (by simp at hs; omega) hccT₂
      · -- no match at the head
        have hstep : pyReplaceF [c, ' '] [] (fuel + 1) (a :: t) =
            a :: pyReplaceF [c, ' '] [] fuel t := by
          simp only [pyReplaceF]
          rw [if_neg]
          simpa using hpre
        rw [hstep]
        have hT : hasSub [c, ' '] (pyReplaceF [c, ' '] [] fuel t) = false :=
          ih t (by simp at hs; omega) hccT
        simp only [hasSub, Bool.or_eq_false_iff]
        refine ⟨?_, hT⟩
        -- the fresh head cannot start an occurrence
        by_cases hacc : a = c
        · subst hacc
          cases t with
          | nil =>
            simp [pyReplaceF_nil, List.isPrefixOf]
          | cons b t' =>
            have hfuel : 1 ≤ fuel := by simp at hs; omega
            obtain ⟨f, rfl⟩ : ∃ f, fuel = f + 1 :=
              ⟨fuel - 1, by omega⟩
            by_cases hpre' : [a, ' '].isPrefixOf (b :: t') = true
            · -- would need a doubled marker in the subject
              exfalso
              simp only [List.isPrefixOf, Bool.and_eq_true, beq_iff_eq] at hpre'
              obtain ⟨hba, -⟩ := hpre'
              subst hba
              simp [hasSub, List.isPrefixOf] at hcc
            · have hstep' : pyReplaceF [a, ' '] [] (f + 1) (b :: t') =
                  b :: pyReplaceF [a, ' '] [] f t' := by
                simp only [pyReplaceF]
                rw [if_neg]
                simpa using hpre'
              rw [hstep']
              have hbsp : ¬ b = ' ' := by
                intro hb
                subst hb
                simp [List.isPrefixOf] at hpre
              simp [List.isPrefixOf, hbsp]
              exact fun h => hbsp h.symm
        · have hca : (c == a) = false := by
            simp only [beq_eq_false_iff_ne, ne_eq]
            exact fun h => hacc h.symm
          simp [List.isPrefixOf, hca]

/-- C10 (amended): the bullet-removal step of `_to_plain_text` removes every
occurrence of `"- "`/`"• "` present at that stage — including incidental
prose occurrences such as `"10 - 20"` — in one leftmost pass, and on any
subject without a doubled marker (`"--"`, `"••"`) the pass leaves no
occurrence of its marker; the full normalization may still emit a marker
when a removal junction re-creates one. -/
theorem bullet_pass_removes_markers :
    toPlainText tenToTwenty = (r"10 20") ∧
    (∀ s : List Char, hasSub ['-', '-'] s = false →
      hasSub ['-', ' '] (pyReplace ['-', ' '] [] s) = false) ∧
    (∀ s : List Char, hasSub ['•', '•'] s = false →
      hasSub ['•', ' '] (pyReplace ['•', ' '] [] s) = false) := by
  refine ⟨by rfl, ?_, ?_⟩
  · intro s h
    exact noRecreate '-' (by decide) s.length s (Nat.le_refl _) h
  · intro s h
    exact noRecreate '•' (by decide) s.length s (Nat.le_refl _) h

/-- Witness for the amended C10 theorem at concrete subjects. -/
theorem bullet_pass_removes_markers_witness :
    hasSub ['-', '-'] (r"a- b").data = false ∧
      hasSub ['-', ' '] (pyReplace ['-', ' '] [] (r"a- b").data) = false ∧
      hasSub ['•', '•'] (r"x• y").data = false ∧
      hasSub ['•', ' '] (pyReplace ['•', ' '] [] (r"x• y").data) = false := by
  refine ⟨by decide, bullet_pass_removes_markers.2.1 _ (by decide),
    by decide, bullet_pass_removes_markers.2.2 _ (by decide)⟩

/-- `allStr?` preserves the length. -/
theorem allStr?_length : ∀ (l : List Json) (l' : List (List Char)),
    allStr? l = some l' → l'.length = l.length := by
  intro l
  induction l with
  | nil =>
    intro l' h
    simp only [allStr?, Option.some.injEq] at h
    subst h
    rfl
  | cons j rest ih =>
    intro l' h
    simp only [allStr?] at h
    cases hj : jsonStr? j with
    | none => rw [hj] at h; exact absurd h (by simp)
    | some s =>
      rw [hj] at h
      cases hr : allStr? rest with
      | none => rw [hr] at h; exact absurd h (by simp)
      | some ss =>
        rw [hr] at h
        simp only [Option.some.injEq] at h
        subst h
        simp [ih ss hr]

/-- A passing ten-string check certifies the length-ten-array predicate. -/
theorem strArray10?_isLen10 (o : Option Json) (l : List (List Char))
    (h : strArray10? o = some l) : isLen10Arr o = true ∧ l.length = 10 := by
  cases o with
  | none => exact absurd h (by simp [strArray10?])
  | some j =>
    cases j with
    | arr es =>
      simp only [strArray10?] at h
      by_cases hlen : es.length = 10
      · rw [if_pos hlen] at h
        have := allStr?_length es l h
        exact ⟨by simp [isLen10Arr, hlen], by omega⟩
      · rw [if_neg hlen] at h
        exact absurd h (by simp)
    | null => exact absurd h (by simp [strArray10?])
    | bool b => exact absurd h (by simp [strArray10?])
    | num lx => exact absurd h (by simp [strArray10?])
    | str s => exact absurd h (by simp [strArray10?])
    | obj ms => exact absurd h (by simp [strArray10?])

/-- C1 (amended): every reply accepted by `parse_model_output` yields a
result whose `headlines` and `subheadlines` hold exactly ten string entries
and whose raw article is non-blank after trimming; the normalized article,
however, may be empty (see the counterexample). -/
theorem parse_model_output_ok_shape (raw : String) (res : PmResult)
    (h : parse_model_output raw = Except.ok res) :
    res.headlines.length = 10 ∧ res.subheadlines.length = 10 ∧
      pyStrip res.article_raw ≠ emptyS := by
  unfold parse_model_output at h
  dsimp only [] at h
  split at h
  · exact Except.noConfusion h
  case _ ms =>
    split at h
    · exact Except.noConfusion h
    case _ hs hH =>
      split at h
      · exact Except.noConfusion h
      case _ ss hS =>
        split at h
        case _ a _ =>
          split at h
          · exact Except.noConfusion h
          case _ hblank =>
            have hres := Except.ok.inj h
            subst hres
            refine ⟨?_, ?_, ?_⟩
            · simpa using (strArray10?_isLen10 _ _ hH).2
            · simpa using (strArray10?_isLen10 _ _ hS).2
            · intro hcon
              apply hblank
              have : pyStripL a = [] := congrArg String.data hcon
              simp [this]
        · exact Except.noConfusion h
  · exact Except.noConfusion h

/-- Witness for the amended C1 theorem: the scenario reply is accepted and
satisfies the invariant. -/
theorem parse_model_output_ok_shape_witness :
    scenarioResult.headlines.length = 10 ∧ scenarioResult.subheadlines.length = 10 ∧
      pyStrip scenarioResult.article_raw ≠ emptyS :=
  parse_model_output_ok_shape rawScenario scenarioResult (by rfl)

/-- C2: whenever the parsed reply's `headlines` or `subheadlines` field is
not an array of exactly ten elements (whatever the element types), or its
`article` field is not a string or is blank after trimming,
`parse_model_output` fails; each violation alone suffices. -/
theorem parse_model_output_rejects_bad_shape (raw : String) (j : Json)
    (hp : jsonLoads (_strip_code_fences raw).data = some j)
    (hbad : isLen10Arr (jgetV j keyHeadlines) = false ∨
      isLen10Arr (jgetV j keySubheadlines) = false ∨
      isNonBlankStr (jgetV j keyArticle) = false) :
    isOkE (parse_model_output raw) = false := by
  unfold parse_model_output
  dsimp only []
  rw [hp]
  cases j with
  | obj ms =>
    simp only [jgetV] at hbad
    cases hH : strArray10? (jget ms keyHeadlines) with
    | none => simp [hH, isOkE]
    | some hs =>
      have h10H := (strArray10?_isLen10 _ _ hH).1
      cases hS : strArray10? (jget ms keySubheadlines) with
      | none => simp [hH, hS, isOkE]
      | some ss =>
        have h10S := (strArray10?_isLen10 _ _ hS).1
        rcases hbad with hb | hb | hb
        · rw [h10H] at hb; exact Bool.noConfusion hb
        · rw [h10S] at hb; exact Bool.noConfusion hb
        · cases hA : jget ms keyArticle with
          | none => simp [hH, hS, hA, isOkE]
          | some ja =>
            cases ja with
            | str a =>
              rw [hA] at hb
              simp only [isNonBlankStr, Bool.not_eq_false'] at hb
              simp [hH, hS, hA, hb, isOkE]
            | null => simp [hH, hS, hA, isOkE]
            | bool b => simp [hH, hS, hA, isOkE]
            | num lx => simp [hH, hS, hA, isOkE]
            | arr es => simp [hH, hS, hA, isOkE]
            | obj ms2 => simp [hH, hS, hA, isOkE]
  | null => simp [isOkE]
  | bool b => simp [isOkE]
  | num lx => simp [isOkE]
  | str s => simp [isOkE]
  | arr es => simp [isOkE]

/-- Witness for C2: a reply whose `headlines` array is empty is rejected. -/
theorem parse_model_output_rejects_bad_shape_witness :
    jsonLoads (_strip_code_fences rawShort).data = some shortJson ∧
      isLen10Arr (jgetV shortJson keyHeadlines) = false ∧
      isOkE (parse_model_output rawShort) = false := by
  refine ⟨by rfl, by rfl, ?_⟩
  exact parse_model_output_rejects_bad_shape rawShort shortJson (by rfl)
    (Or.inl (by rfl))

/-- Skipping a not-found run: the candidate loop over `pre ++ rest`, when
every candidate of `pre` raises not-found, continues into `rest` with some
recorded last error and prepends `pre` to the attempted-candidate trace. -/
theorem runCandidates_skip (oracle : String → CallOutcome) :
    ∀ (pre rest : List String) (last : Option Nat),
      (∀ p ∈ pre, (oracle p).isNF = true) →
      ∃ last', runCandidates oracle (pre ++ rest) last =
        ((runCandidates oracle rest last').1,
         pre ++ (runCandidates oracle rest last').2) := by
  intro pre
  induction pre with
  | nil => intro rest last _; exact ⟨last, by simp⟩
  | cons p pre ih =>
    intro rest last hall
    have hp : (oracle p).isNF = true := hall p (by simp)
    cases hop : oracle p with
    | success resp => rw [hop] at hp; exact absurd hp (by simp [CallOutcome.isNF])
    | failure t => rw [hop] at hp; exact absurd hp (by simp [CallOutcome.isNF])
    | notFound t =>
      obtain ⟨last', heq⟩ := ih rest (some t) (fun q hq => hall q (by simp [hq]))
      refine ⟨last', ?_⟩
      have hstep : runCandidates oracle (p :: (pre ++ rest)) last =
          ((runCandidates oracle (pre ++ rest) (some t)).1,
           p :: (runCandidates oracle (pre ++ rest) (some t)).2) := by
        simp [runCandidates, hop]
      rw [List.cons_append, hstep, heq]
      simp

/-- C4: the candidates are tried in order; the first call that yields
non-empty extractable text makes `generate_press_release` return that text
with no further candidate attempted, and a successful call with no
extractable text makes it return the diagnostic sentinel, again with no
further candidate attempted. -/
theorem generate_returns_first_text (oracle : String → CallOutcome)
    (names pre post : List String) (cand : String) (resp : Response)
    (hexp : expandedCandidates names = pre ++ cand :: post)
    (hpre : ∀ p ∈ pre, (oracle p).isNF = true)
    (hc : oracle cand = .success resp) :
    (_extract_text_from_response resp ≠ emptyS →
      generate_press_release oracle names = .ok (_extract_text_from_response resp) ∧
      generationCalls oracle names = pre ++ [cand]) ∧
    (_extract_text_from_response resp = emptyS →
      generate_press_release oracle names = .ok SENTINEL ∧
      generationCalls oracle names = pre ++ [cand]) := by
  obtain ⟨last', heq⟩ := runCandidates_skip oracle pre (cand :: post) none hpre
  have hrun : runCandidates oracle (cand :: post) last' =
      ((if _extract_text_from_response resp = emptyS then .ok SENTINEL
        else .ok (_extract_text_from_response resp)), [cand]) := by
    simp [runCandidates, hc]
  constructor
  · intro hne
    unfold generate_press_release generationCalls
    rw [hexp, heq, hrun]
    simp [if_neg hne]
  · intro he
    unfold generate_press_release generationCalls
    rw [hexp, heq, hrun]
    simp [if_pos he]

/-- Witness for C4 at the spec's fallback scenario: the first two candidates
are not found, `models/b` succeeds, and `b` is never attempted. -/
theorem generate_returns_first_text_witness :
    generate_press_release oracleAB [mASlash, mBSlash] = .ok (r"text") ∧
      generationCalls oracleAB [mASlash, mBSlash] = [mASlash, r"a", mBSlash] := by
  have hc : oracleAB mBSlash = .success respText := by
    unfold oracleAB
    rw [if_pos rfl]
  have h := generate_returns_first_text oracleAB [mASlash, mBSlash]
    [mASlash, r"a"] [r"b"] mBSlash respText (by decide) (by decide) hc
  exact h.1 (by decide)

/-- C5: exhausting all candidates on not-found errors raises the last
not-found error observed; an empty candidate sequence raises the generic
invocation failure; and any non-not-found error propagates immediately,
with no later candidate attempted. -/
theorem generate_error_paths (oracle : String → CallOutcome) :
    (∀ (names pre : List String) (c : String) (t : Nat),
      expandedCandidates names = pre ++ [c] →
      (∀ p ∈ pre, (oracle p).isNF = true) →
      oracle c = .notFound t →
      generate_press_release oracle names = .error (.notFound t)) ∧
    (∀ names : List String, expandedCandidates names = [] →
      generate_press_release oracle names = .error .invocationFailed) ∧
    (∀ (names pre post : List String) (c : String) (t : Nat),
      expandedCandidates names = pre ++ c :: post →
      (∀ p ∈ pre, (oracle p).isNF = true) →
      oracle c = .failure t →
      generate_press_release oracle names = .error (.other t) ∧
      generationCalls oracle names = pre ++ [c]) := by
  refine ⟨?_, ?_, ?_⟩
  · intro names pre c t hexp hpre hct
    obtain ⟨last', heq⟩ := runCandidates_skip oracle pre [c] none hpre
    have hrun : runCandidates oracle [c] last' =
        (Except.error (GenError.notFound t), [c]) := by
      simp [runCandidates, hct, lastErr]
    unfold generate_press_release
    rw [hexp, heq, hrun]
  · intro names hexp
    unfold generate_press_release
    rw [hexp]
    simp [runCandidates, lastErr]
  · intro names pre post c t hexp hpre hct
    obtain ⟨last', heq⟩ := runCandidates_skip oracle pre (c :: post) none hpre
    have hrun : runCandidates oracle (c :: post) last' =
        (Except.error (GenError.other t), [c]) := by
      simp [runCandidates, hct]
    unfold generate_press_release generationCalls
    rw [hexp, heq, hrun]
    exact ⟨rfl, rfl⟩

/-- Witness for C5: the three error paths at concrete oracles — the last
not-found error 2 is raised, the empty list raises the generic failure, and
a non-not-found error 5 propagates after the first candidate. -/
theorem generate_error_paths_witness :
    generate_press_release oracleTagged [mASlash] = .error (.notFound 2) ∧
      generate_press_release oracleTagged [] = .error .invocationFailed ∧
      generate_press_release oracleFail [mASlash] = .error (.other 5) ∧
      generationCalls oracleFail [mASlash] = [mASlash, r"a"] := by
  refine ⟨?_, ?_, ?_, ?_⟩
  · refine (generate_error_paths oracleTagged).1 [mASlash] [mASlash] (r"a") 2
      (by decide) (by decide) ?_
    unfold oracleTagged
    rw [if_neg (by decide)]
  · exact (generate_error_paths oracleTagged).2.1 [] (by decide)
  · refine ((generate_error_paths oracleFail).2.2 [mASlash] [mASlash] [] (r"a") 5
      (by decide) (by decide) ?_).1
    unfold oracleFail
    rw [if_neg (by decide)]
  · refine ((generate_error_paths oracleFail).2.2 [mASlash] [mASlash] [] (r"a") 5
      (by decide) (by decide) ?_).2
    unfold oracleFail
    rw [if_neg (by decide)]

/-- The attempted-candidate trace is a prefix of the candidate sequence. -/
theorem runCandidates_trace_isPre (oracle : String → CallOutcome) :
    ∀ (cands : List String) (last : Option Nat),
      (runCandidates oracle cands last).2 <+: cands := by
  intro cands
  induction cands with
  | nil => intro last; simp [runCandidates]
  | cons name rest ih =>
    intro last
    cases hop : oracle name with
    | success resp =>
      simp [runCandidates, hop]
    | notFound t =>
      simp only [runCandidates, hop]
      obtain ⟨r, hr⟩ := ih (some t)
      exact ⟨r, by simp [hr]⟩
    | failure t =>
      simp [runCandidates, hop]

/-- `dedupeNE` never lengthens its input. -/
theorem dedupeNE_length : ∀ (l seen : List String), (dedupeNE seen l).length ≤ l.length := by
  intro l
  induction l with
  | nil => intro seen; simp [dedupeNE]
  | cons x rest ih =>
    intro seen
    simp only [dedupeNE]
    split
    · simpa using ih (x :: seen)
    · exact Nat.le_succ_of_le (ih seen)

/-- Each model name expands to at most two candidate identifiers. -/
theorem candidate_model_names_length (m : String) :
    (_candidate_model_names m).length ≤ 2 := by
  unfold _candidate_model_names
  exact dedupeNE_length _ []

/-- The flattened candidate sequence has at most twice as many entries as
the model-name list. -/
theorem expandedCandidates_length (names : List String) :
    (expandedCandidates names).length ≤ 2 * names.length := by
  induction names with
  | nil => simp [expandedCandidates]
  | cons n rest ih =>
    simp only [expandedCandidates, List.length_append, List.length_cons]
    have := candidate_model_names_length n
    omega

/-- C6 (amended): one generation call is made per attempted candidate, the
attempted candidates form a prefix of the flattened candidate sequence, and
the total number of calls is bounded by twice the model-name list's length
(each name expands to up to two identifier variants) — not by the length
itself. -/
theorem generation_calls_bound (oracle : String → CallOutcome) (names : List String) :
    generationCalls oracle names <+: expandedCandidates names ∧
      (generationCalls oracle names).length ≤ 2 * names.length := by
  have hpre := runCandidates_trace_isPre oracle (expandedCandidates names) none
  refine ⟨hpre, ?_⟩
  exact Nat.le_trans hpre.length_le (expandedCandidates_length names)

/-- `lstripL` keeps a list starting with a non-whitespace character. -/
theorem lstripL_of_head (c : Char) (t : List Char) (hc : isPyWs c = false) :
    lstripL (c :: t) = c :: t := by
  simp [lstripL, List.dropWhile_cons, hc]

/-- `rstripL` drops a trailing whitespace character. -/
theorem rstripL_append_ws (x : List Char) (c : Char) (hc : isPyWs c = true) :
    rstripL (x ++ [c]) = rstripL x := by
  simp [rstripL, List.dropWhile_cons, hc]

/-- `rstripL` keeps a list ending in a non-whitespace character. -/
theorem rstripL_append_of_last (x : List Char) (c : Char) (hc : isPyWs c = false) :
    rstripL (x ++ [c]) = x ++ [c] := by
  simp [rstripL, List.dropWhile_cons, hc]

/-- `pyStripL` is the identity on lists with non-whitespace endpoints. -/
theorem pyStripL_of_ends (c d : Char) (t : List Char)
    (hc : isPyWs c = false) (hd : isPyWs d = false) :
    pyStripL (c :: t ++ [d]) = c :: t ++ [d] := by
  unfold pyStripL
  rw [show c :: t ++ [d] = (c :: t) ++ [d] from rfl, rstripL_append_of_last _ _ hd]
  exact lstripL_of_head c (t ++ [d]) hc

/-- `pyStripL` swallows one trailing newline. -/
theorem pyStripL_append_nl (x : List Char) :
    pyStripL (x ++ ['\n']) = pyStripL x := by
  unfold pyStripL
  rw [rstripL_append_ws x '\n' (by decide)]

/-- C8 (amended): `_strip_code_fences` removes a wrapping triple-backtick
block, dropping a bare `json` language line, and on text whose trimmed form
carries no such wrapper it returns the trimmed text — the identity exactly
up to stripping the surrounding whitespace. -/
theorem strip_code_fences_spec :
    (∀ s : String, isFenceWrapped s = false → _strip_code_fences s = pyStrip s) ∧
    (∀ body : String, pyStrip body = body →
      _strip_code_fences (wrapJson body) = body) := by
  constructor
  · intro s h
    simp only [isFenceWrapped, Bool.and_eq_false_iff] at h
    unfold _strip_code_fences stripCodeFencesL pyStrip
    dsimp only []
    rw [if_neg]
    intro hcon
    rcases h with h | h <;> rw [h] at hcon <;> simp at hcon
  · intro body hbody
    have hdata : pyStripL body.data = body.data := congrArg String.data hbody
    unfold _strip_code_fences wrapJson stripCodeFencesL
    dsimp only []
    have hshape : ['`', '`', '`', 'j', 's', 'o', 'n', '\n'] ++ body.data ++ ['\n', '`', '`', '`'] =
        '`' :: (['`', '`', 'j', 's', 'o', 'n', '\n'] ++ body.data ++ ['\n', '`', '`']) ++ ['`'] := by
      simp
    have hclean : pyStripL (['`', '`', '`', 'j', 's', 'o', 'n', '\n'] ++ body.data ++ ['\n', '`', '`', '`']) =
        ['`', '`', '`', 'j', 's', 'o', 'n', '\n'] ++ body.data ++ ['\n', '`', '`', '`'] := by
      rw [hshape, pyStripL_of_ends '`' '`' _ (by decide) (by decide)]
    rw [hclean]
    rw [if_pos]
    · have hdrop : (['`', '`', '`', 'j', 's', 'o', 'n', '\n'] ++ body.data ++ ['\n', '`', '`', '`']).drop 3 =
          (['j', 's', 'o', 'n', '\n'] ++ body.data ++ ['\n']) ++ ['`', '`', '`'] := by
        simp
      rw [hdrop]
      have hlen : ((['j', 's', 'o', 'n', '\n'] ++ body.data ++ ['\n']) ++ ['`', '`', '`']).length - 3 =
          (['j', 's', 'o', 'n', '\n'] ++ body.data ++ ['\n']).length := by
        simp
      rw [hlen, List.take_left]
      have hsplit : splitFirstNl (['j', 's', 'o', 'n', '\n'] ++ body.data ++ ['\n']) =
          some (['j', 's', 'o', 'n'], body.data ++ ['\n']) := by
        simp [splitFirstNl]
      rw [hsplit]
      dsimp only []
      rw [if_pos (by decide)]
      rw [pyStripL_append_nl, hdata]
    · rw [Bool.and_eq_true]
      constructor
      · simp [fence, List.isPrefixOf]
      · show fence.isSuffixOf _ = true
        simp [fence, List.isSuffixOf, List.reverse_append, List.isPrefixOf]

/-- Witness for the amended C8 theorem: a plain no-wrapper text and a
wrapped body. -/
theorem strip_code_fences_spec_witness :
    isFenceWrapped (r"plain text") = false ∧
      _strip_code_fences (r"plain text") = pyStrip (r"plain text") ∧
      pyStrip (r"BODY") = (r"BODY") ∧
      _strip_code_fences (wrapJson (r"BODY")) = (r"BODY") := by
  refine ⟨by decide, strip_code_fences_spec.1 _ (by decide), by decide,
    strip_code_fences_spec.2 _ (by decide)⟩

/-- Every line fed to `"\n".join` is an infix of the joined text. -/
theorem infix_joinNlL : ∀ (ls : List (List Char)) (x : List Char),
    x ∈ ls → x <:+: joinNlL ls := by
  intro ls
  induction ls with
  | nil => intro x hx; simp at hx
  | cons a rest ih =>
    intro x hx
    cases rest with
    | nil =>
      simp only [List.mem_singleton] at hx
      subst hx
      simp [joinNlL]
    | cons b rest2 =>
      rcases List.mem_cons.mp hx with h | h
      · subst h
        exact (List.prefix_append x ('\n' :: joinNlL (b :: rest2))).isInfix
      · have hx2 := ih x h
        have step1 : joinNlL (b :: rest2) <:+ '\n' :: joinNlL (b :: rest2) :=
          List.suffix_cons '\n' _
        have step2 : '\n' :: joinNlL (b :: rest2) <:+ a ++ '\n' :: joinNlL (b :: rest2) :=
          List.suffix_append a _
        exact hx2.trans ((step1.trans step2).isInfix)

/-- A non-empty all-non-whitespace infix survives `lstripL`. -/
theorem infix_lstripL (p : List Char) (hp : p ≠ [])
    (hnw : ∀ c ∈ p, isPyWs c = false) :
    ∀ s : List Char, p <:+: s → p <:+: lstripL s := by
  intro s
  induction s with
  | nil =>
    intro h
    rw [List.infix_nil] at h
    exact absurd h hp
  | cons a t ih =>
    intro h
    by_cases ha : isPyWs a = true
    · have hstep : lstripL (a :: t) = lstripL t := by
        simp [lstripL, List.dropWhile_cons, ha]
      rw [hstep]
      rcases List.infix_cons_iff.mp h with hpre | hinf
      · cases p with
        | nil => exact absurd rfl hp
        | cons c p' =>
          have hca : c = a := (List.cons_prefix_iff.mp hpre).1
          have := hnw c (by simp)
          rw [hca] at this
          rw [this] at ha
          exact Bool.noConfusion ha
      · exact ih hinf
    · have hstep : lstripL (a :: t) = a :: t := by
        simp only [Bool.not_eq_true] at ha
        exact lstripL_of_head a t ha
      rw [hstep]
      exact h

/-- A non-empty all-non-whitespace infix survives `rstripL`. -/
theorem infix_rstripL (p : List Char) (hp : p ≠ [])
    (hnw : ∀ c ∈ p, isPyWs c = false) (s : List Char) (h : p <:+: s) :
    p <:+: rstripL s := by
  have hrev : p.reverse <:+: s.reverse := List.reverse_infix.mpr h
  have hrevne : p.reverse ≠ [] := by simpa using hp
  have hrevnw : ∀ c ∈ p.reverse, isPyWs c = false := by
    intro c hc
    exact hnw c (List.mem_reverse.mp hc)
  have := infix_lstripL p.reverse hrevne hrevnw s.reverse hrev
  have hres : p.reverse <:+: (rstripL s).reverse := by
    unfold rstripL lstripL at *
    simpa using this
  exact List.reverse_infix.mp hres

/-- A non-empty all-non-whitespace infix survives `pyStripL`. -/
theorem infix_pyStripL (p : List Char) (hp : p ≠ [])
    (hnw : ∀ c ∈ p, isPyWs c = false) (s : List Char) (h : p <:+: s) :
    p <:+: pyStripL s :=
  infix_lstripL p hp hnw (rstripL s) (infix_rstripL p hp hnw s h)

/-- C9: with blank (empty or whitespace-only) user instructions and no
sources, the built prompt contains the no-special-instructions placeholder
line and the no-reference-material placeholder line — no section is left
empty. -/
theorem build_prompt_placeholders (base_prompt instructions : String)
    (h : pyStrip instructions = emptyS) :
    strContains (build_prompt base_prompt instructions []) noInstr = true ∧
      strContains (build_prompt base_prompt instructions []) noSources = true := by
  unfold build_prompt
  dsimp only []
  rw [if_pos h]
  constructor
  · show hasSub noInstr.data (pyStripL (joinNlL _)) = true
    rw [hasSub_spec]
    refine infix_pyStripL _ (by decide) (by decide) _ ?_
    refine infix_joinNlL _ _ ?_
    simp [List.mem_map]
  · show hasSub noSources.data (pyStripL (joinNlL _)) = true
    rw [hasSub_spec]
    refine infix_pyStripL _ (by decide) (by decide) _ ?_
    refine infix_joinNlL _ _ ?_
    simp [List.mem_map]

/-- Witness for C9 at empty base prompt and empty instructions. -/
theorem build_prompt_placeholders_witness :
    strContains (build_prompt emptyS emptyS []) noInstr = true ∧
      strContains (build_prompt emptyS emptyS []) noSources = true :=
  build_prompt_placeholders emptyS emptyS (by decide)

end PR
